import Mathlib

/-!
Verification of the sub-SKU allocation and reconciliation engine of the
`itsara` repository (`app/utils/helper.js`), against its natural-language
specification.

The engine code is shallowly embedded: each JavaScript function that the
claims reference is translated into a pure Lean function over explicit
state (the per-SKU pool record, the assignment-ledger entry, the log
sheet).  JavaScript-specific semantics that the code relies on are
modelled explicitly:

* `parseInt` (decimal): longest digit prefix after skipping spaces,
  `NaN` when there is none (modelled as `Option Nat`; sign and hex
  prefixes cannot occur in this code's inputs, since every parsed string
  is the piece of a name after its last `"-"`, or a regex match of
  trailing digits);
* `name.split("-").pop()`: the substring after the last `"-"` (the whole
  string when there is no dash, `""` for a trailing dash);
* `arr.slice(-q)` / `arr.slice(0, -q)` for `q ≥ 0`: note `slice(-0)`
  is `slice(0)` (the whole array) and `slice(0, -0)` is empty;
* `Array.prototype.sort` with the numeric-suffix comparator
  `(a, b) => numA - numB`: a stable sort; a comparator value of `NaN`
  is treated by the sort as `+0` (ES `SortCompare`), i.e. "equal".
  Modelled as a stable insertion sort, which agrees with every
  conforming engine whenever the comparator is consistent (and on the
  two-element inputs used in counterexamples).
-/

set_option maxRecDepth 4096

/-- The numeric value of a list of decimal digit characters
(most significant first). -/
def natOfDigits (ds : List Char) : Nat :=
  ds.foldl (fun a c => a * 10 + (c.toNat - '0'.toNat)) 0

/-- JavaScript `parseInt(s)` (decimal): skip leading spaces, then read the
longest digit prefix; `none` models `NaN` (no digits). -/
def parseIntJS (s : String) : Option Nat :=
  let ds := (s.data.dropWhile (fun c => c = ' ')).takeWhile Char.isDigit
  if ds.isEmpty then none else some (natOfDigits ds)

/-- JavaScript `s.split("-").pop()`: the substring after the last `"-"`
(the whole string when no dash occurs, `""` for a trailing dash). -/
def lastComponent (s : String) : String :=
  String.mk ((s.data.reverse.takeWhile (fun c => c ≠ '-')).reverse)

/-- JavaScript `s.match(ending digits regex) ? parseInt(match) : 0` as used in
`addSubSKUsToBase`: value of the maximal run of trailing digits, else `0`. -/
def trailingNumJS (s : String) : Nat :=
  natOfDigits (s.data.reverse.takeWhile Char.isDigit).reverse

/-- JavaScript `str.padStart(4, "0")`. -/
def padStart4 (s : String) : String :=
  String.mk (List.replicate (4 - s.length) '0') ++ s

/-- JavaScript `String(v)` for a number that may be `NaN`. -/
def jsNumToString : Option Nat → String
  | some n => toString n
  | none => "NaN"

/-- Sub-unit name builder, the template
`sku ++ "-" ++ String(v).padStart(4, "0")` used throughout the source. -/
def subName (sku : String) (v : Option Nat) : String :=
  sku ++ "-" ++ padStart4 (jsNumToString v)

/-- JavaScript `arr.slice(-q)` for `q ≥ 0`; `slice(-0)` is the whole array. -/
def jsSliceLast (l : List α) (q : Nat) : List α :=
  if q = 0 then l else l.drop (l.length - q)

/-- JavaScript `arr.slice(0, -q)` for `q ≥ 0`; `slice(0, -0)` is empty. -/
def jsDropLast (l : List α) (q : Nat) : List α :=
  if q = 0 then [] else l.take (l.length - q)

/-- A sub-unit entry of a pool: `{ name, status }`, with `status` one of the
strings `"available"` / `"unavailable"` as stored by the source. -/
structure SubSKU where
  name : String
  status : String
  deriving DecidableEq, Repr

/-- A per-SKU pool record (`db.SKU` row): base SKU plus the stored,
insertion-ordered list of sub-units. -/
structure SKURecord where
  sku : String
  subSKU : List SubSKU
  deriving DecidableEq, Repr

/-- `subSku.status === "available"`. -/
def isAvail (s : SubSKU) : Bool :=
  decide (s.status = "available")

/-- The comparator key of `getAvailableSKUs`:
`parseInt(subSku.name?.split("-").pop() || "0")`; `none` is `NaN`. -/
def suffixKey (s : SubSKU) : Option Nat :=
  let last := lastComponent s.name
  parseIntJS (if last = "" then "0" else last)

/-- Boolean "does not compare greater" under the source's comparator
`(a, b) => numA - numB`: for numeric keys this is `numA ≤ numB`; when either
key is `NaN` the comparator yields `NaN`, which ES `SortCompare` treats as
`+0`, i.e. "equal", hence `true` here. -/
def subLE (a b : SubSKU) : Bool :=
  match suffixKey a, suffixKey b with
  | some x, some y => decide (x ≤ y)
  | _, _ => true

/-- Stable insertion of `x` into `l`: before the first element not
smaller than it would be unstable, so `x` goes before the first `y`
with `subLE x y` (ties keep the earlier element first). -/
def insertJS (x : SubSKU) : List SubSKU → List SubSKU
  | [] => [x]
  | y :: ys => if subLE x y then x :: y :: ys else y :: insertJS x ys

/-- `subSKU.sort(comparator)` modelled as a stable insertion sort. -/
def jsSort : List SubSKU → List SubSKU
  | [] => []
  | x :: xs => insertJS x (jsSort xs)

/-- Result shape of `getAvailableSKUs` for one SKU row. -/
structure SKUAvailability where
  sku : String
  totalQuantity : Nat
  availableQuantity : Nat
  availableSubSkus : List SubSKU
  deriving DecidableEq, Repr

/-- `getAvailableSKUs` applied to one existing pool record: sort all
sub-units by numeric suffix, then filter the available ones, keeping the
sorted order (`helper.js` lines 163-207). -/
def getAvailableSingle (rec : SKURecord) : SKUAvailability :=
  let sortedSubSKUs := jsSort rec.subSKU
  let availableSubSkus := sortedSubSKUs.filter isAvail
  { sku := rec.sku
    totalQuantity := rec.subSKU.length
    availableQuantity := availableSubSkus.length
    availableSubSkus := availableSubSkus }

/-- `getAvailableSKUs sku` at the store level: `db.SKU.findMany` returns no
row for an unknown SKU, so the result list is empty; otherwise one entry. -/
def getAvailableSKUs (store : Option SKURecord) : List SKUAvailability :=
  match store with
  | none => []
  | some rec => [getAvailableSingle rec]

/-- `updateSubSKUStatus`: set `newStatus` on every sub-unit whose name is in
`names`, in one map over the stored list (`helper.js` lines 253-311). -/
def updateSubSKUStatus (rec : SKURecord) (names : List String) (newStatus : String) : SKURecord :=
  { rec with
    subSKU := rec.subSKU.map fun s =>
      if s.name ∈ names then { s with status := newStatus } else s }

/-- `addSubSKUsToBase`: compute the highest trailing-digit number over the
entire stored list (`0` when empty), then append `quantity` fresh available
sub-units numbered from it (`helper.js` lines 319-364). -/
def addSubSKUsToBase (rec : SKURecord) (quantity : Nat) : SKURecord :=
  let highestNumber := (rec.subSKU.map fun s => trailingNumJS s.name).foldl max 0
  let newSubSKUs := (List.range quantity).map fun i =>
    { name := subName rec.sku (some (highestNumber + i + 1)), status := "available" }
  { rec with subSKU := rec.subSKU ++ newSubSKUs }

/-- `removeSubSKUsByQuantity` (`helper.js` lines 372-423): take the stored
available subsequence, fail when it is shorter than `quantity`, otherwise
delete every sub-unit whose name is among the last `quantity` available
ones (`availableSubSKUs.slice(-quantity)`). -/
def removeSubSKUsByQuantity (rec : SKURecord) (quantity : Nat) : Except String SKURecord :=
  let availableSubSKUs := rec.subSKU.filter isAvail
  if availableSubSKUs.length < quantity then
    .error ("Not enough available subSKUs for " ++ rec.sku ++ ". Requested: "
      ++ toString quantity ++ ", Available: " ++ toString availableSubSKUs.length)
  else
    let subSKUsToRemove := (jsSliceLast availableSubSKUs quantity).map (fun s => s.name)
    .ok { rec with
      subSKU := rec.subSKU.filter fun s => decide (s.name ∉ subSKUsToRemove) }

/-- A throwing `removeSubSKUsByQuantity` leaves the stored record untouched
(the `db.SKU.update` call is never reached); this is the state a caller
observes. -/
def applyRemove (rec : SKURecord) (quantity : Nat) : SKURecord :=
  match removeSubSKUsByQuantity rec quantity with
  | .ok rec' => rec'
  | .error _ => rec

/-- `createNewSKU` (`helper.js` lines 499-541): fresh record with
`quantity` available sub-units named `sku-0001..`; an existing record is
replaced only when its sub-unit list is empty.  `Array.from` clamps a
negative length to `0`. -/
def createNewSKU (store : Option SKURecord) (sku : String) (quantity : Int) : SKURecord :=
  let subSKUs := (List.range quantity.toNat).map fun i =>
    { name := subName sku (some (i + 1)), status := "available" : SubSKU }
  match store with
  | none => { sku := sku, subSKU := subSKUs }
  | some r => if r.subSKU.length = 0 then { sku := r.sku, subSKU := subSKUs } else r

/-- Per-line-item result of `processOrderCreation`. -/
structure ItemResult where
  success : Bool
  errorMsg : Option String
  markedUnavailable : List String
  addedNew : Nat
  deriving DecidableEq, Repr

/-- One line item of `processOrderCreation` (`helper.js` lines 1074-1247),
for a base SKU with local record `store` and Shopify-reported quantity
`shopifyQuantity`:

1. take the first `quantity` entries of the sorted available list;
2. on shortfall, number `quantity - available` fresh sub-units from the
   suffix of the **last available** sub-unit (`0` when none), push them,
   and re-slice the refreshed available list to fill up the selection;
3. mark every selected name `"unavailable"` in one update;
4. if the available count now lags `shopifyQuantity`, top up through
   `addSubSKUsToBase`.

A missing record is the failure case (`"SKU not found in database"`). -/
def processOrderCreationItem (store : Option SKURecord) (quantity : Nat)
    (shopifyQuantity : Int) : Option SKURecord × ItemResult :=
  match store with
  | none =>
    (none,
      { success := false
        errorMsg := some "SKU not found in database"
        markedUnavailable := []
        addedNew := 0 })
  | some rec0 =>
    let avail0 := (getAvailableSingle rec0).availableSubSkus
    let selected0 := avail0.take quantity
    let step1 : SKURecord × List SubSKU :=
      if selected0.length < quantity then
        let toAdd := quantity - selected0.length
        let lastNumber : Option Nat :=
          match avail0.getLast? with
          | none => some 0
          | some lastSubSKU => suffixKey lastSubSKU
        let newSubSKUs := (List.range toAdd).map fun i =>
          { name := subName rec0.sku (lastNumber.map fun n => n + i + 1),
            status := "available" : SubSKU }
        let rec1 := { rec0 with subSKU := rec0.subSKU ++ newSubSKUs }
        let updatedAvailableSubSKUs := (getAvailableSingle rec1).availableSubSkus.take quantity
        (rec1, selected0 ++ updatedAvailableSubSKUs.drop selected0.length)
      else (rec0, selected0)
    let rec1 := step1.1
    let names := step1.2.map fun s => s.name
    let rec2 := updateSubSKUStatus rec1 names "unavailable"
    let ourNewQuantity := (getAvailableSingle rec2).availableQuantity
    let topUp := ((shopifyQuantity - (ourNewQuantity : Int)).toNat)
    let rec3 := if (ourNewQuantity : Int) < shopifyQuantity
      then addSubSKUsToBase rec2 topUp else rec2
    (some rec3,
      { success := true
        errorMsg := none
        markedUnavailable := names
        addedNew := if (ourNewQuantity : Int) < shopifyQuantity then topUp else 0 })

/-- Outcome tag of `processInventoryLevelUpdate`. -/
inductive InvAction where
  | added (quantity : Nat)
  | removed (quantity : Nat)
  | same
  deriving DecidableEq, Repr

/-- Core of `processInventoryLevelUpdate` (`helper.js` lines 599-727), after
the inventory-item-to-SKU resolution: create the record when missing, then
compare the local available count with the webhook quantity `n`; on a
deficit push fresh sub-units numbered from the **last available** sub-unit's
suffix, on a surplus call `removeSubSKUsByQuantity`, else do nothing.
A thrown removal error propagates as the operation's failure result. -/
def processInventoryLevelUpdate (store : Option SKURecord) (sku : String)
    (n : Int) : Except String (SKURecord × InvAction) :=
  let rec0 := match store with
    | none => createNewSKU none sku n
    | some r => r
  let skuData := getAvailableSingle rec0
  let ourQuantity : Int := skuData.availableQuantity
  if ourQuantity < n then
    let toAdd := (n - ourQuantity).toNat
    let lastNumber : Option Nat :=
      match skuData.availableSubSkus.getLast? with
      | none => some 0
      | some lastSubSKU => suffixKey lastSubSKU
    let newSubSKUs := (List.range toAdd).map fun i =>
      { name := subName sku (lastNumber.map fun k => k + i + 1),
        status := "available" : SubSKU }
    .ok ({ rec0 with subSKU := rec0.subSKU ++ newSubSKUs }, .added toAdd)
  else if n < ourQuantity then
    let toRemove := (ourQuantity - n).toNat
    match removeSubSKUsByQuantity rec0 toRemove with
    | .ok rec' => .ok (rec', .removed toRemove)
    | .error e => .error e
  else .ok (rec0, .same)

/-- Outcome of releasing one ledger entry. -/
structure ReleaseOutcome where
  pool : SKURecord
  released : List String
  newEntry : List String
  skipped : Bool
  deriving DecidableEq, Repr

/-- The release step shared verbatim by `processRefund`
(`helper.js` lines 1958-2002) and `processOrderCancellation`
(lines 1476-1512): given the ledger entry (`assignedSubSKUs[lineItemId]
|| []`) of one line item, skip when it is empty, otherwise flip
the last `quantity` names (`lineItemSubSKUs.slice(-quantity)`) to
`"available"` and shrink the entry to `lineItemSubSKUs.slice(0,
-quantity)`. -/
def releaseLineItem (pool : SKURecord) (entry : List String) (quantity : Nat) :
    ReleaseOutcome :=
  if entry.length = 0 then
    { pool := pool, released := [], newEntry := entry, skipped := true }
  else
    let subSKUsToMarkAvailable := jsSliceLast entry quantity
    { pool := updateSubSKUStatus pool subSKUsToMarkAvailable "available"
      released := subSKUsToMarkAvailable
      newEntry := jsDropLast entry quantity
      skipped := false }

/-- One variant of a product webhook payload (`variant.inventory_quantity
|| 0` is already folded into the `Int` field; a variant without a SKU is
skipped by the source loop). -/
structure VariantPayload where
  sku : Option String
  inventory_quantity : Int
  deriving DecidableEq, Repr

/-- Product webhook payload (the fields the engine logic reads). -/
structure ProductPayload where
  id : Nat
  title : String
  variants : List VariantPayload
  deriving DecidableEq, Repr

/-- One variant of the product snapshot stored by `saveProductToDatabase`. -/
structure SnapshotVariant where
  sku : String
  quantity : Int
  deriving DecidableEq, Repr

/-- The per-product snapshot record consulted by `processProductUpdate`. -/
structure ProductSnapshot where
  variants : List SnapshotVariant
  deriving DecidableEq, Repr

/-- The inventory-increase test of `processProductUpdate`
(`helper.js` line 2495): a variant with a SKU enters the increase branch
when there is no snapshot at all, or when `variant.inventory_quantity || 0`
exceeds the snapshot quantity (`0` when the variant is absent from the
snapshot). -/
def variantTriggersIncrease (snapshot : Option ProductSnapshot)
    (v : VariantPayload) : Bool :=
  match v.sku with
  | none => false
  | some sku =>
    match snapshot with
    | none => true
    | some p =>
      let existingVariant := p.variants.find? fun sv => sv.sku = sku
      let newQuantity := v.inventory_quantity
      let oldQuantity := match existingVariant with
        | some sv => sv.quantity
        | none => 0
      decide (oldQuantity < newQuantity)

/-- `processProductUpdate` (`helper.js` lines 2403-2660) restricted to its
effect on SKU pool records and its result.  The increase branch
(lines 2495-2573) evaluates `skuData?.availableSubSkus?.length` in a log
statement, but no `skuData` binding is in scope there (the only ones are
inside the commented-out weight block), so the branch throws
`ReferenceError: skuData is not defined`, which the surrounding `try`
turns into `{ success: false }`.  No branch of the function writes
`db.SKU` (the generated names only go to the spreadsheet rows and the
function result), so the pool store passes through unchanged; the
weight-update block is commented out in the source and is not modelled. -/
def processProductUpdate (pools : List SKURecord)
    (snapshot : Option ProductSnapshot) (payload : ProductPayload) :
    List SKURecord × Except String Unit :=
  if payload.variants.any (variantTriggersIncrease snapshot) then
    (pools, .error "skuData is not defined")
  else
    (pools, .ok ())

/-- A line item of an order-creation webhook payload. -/
structure OrderLineItem where
  id : Nat
  sku : Option String
  quantity : Nat
  deriving DecidableEq, Repr

/-- An order-creation webhook payload (the fields the engine reads). -/
structure OrderPayload where
  id : Nat
  name : String
  timeParis : String
  line_items : List OrderLineItem
  deriving DecidableEq, Repr

/-- `db.SKU.findUnique` over the whole store. -/
def findSKU (store : List SKURecord) (sku : String) : Option SKURecord :=
  store.find? fun r => r.sku = sku

/-- `db.SKU.update` over the whole store (keyed by base SKU). -/
def saveSKU (store : List SKURecord) (rec : SKURecord) : List SKURecord :=
  store.map fun r => if r.sku = rec.sku then rec else r

/-- `processOrderCreation` (`helper.js` lines 1067-1275) over all line
items of the payload.  The source fans the items out with `Promise.all`;
the claims touched here do not depend on the interleaving, so the items
are processed in list order.  Returns the updated store and the
per-line-item results `(lineItemId, result)` of items that had a SKU. -/
def processOrderCreation (store : List SKURecord) (ext : String → Int)
    (items : List OrderLineItem) : List SKURecord × List (Nat × ItemResult) :=
  items.foldl
    (fun acc item =>
      match item.sku with
      | none => acc
      | some sku =>
        let out := processOrderCreationItem (findSKU acc.1 sku) item.quantity (ext sku)
        let store' := match out.1 with
          | some rec => saveSKU acc.1 rec
          | none => acc.1
        (store', acc.2 ++ [(item.id, out.2)]))
    (store, [])

/-- Webhook-level state touched by `processWebhookPayloadWithSKUs`: the SKU
pool store, the `"Orders"` sheet (first row is the header), and the
order-metafield ledger writes `(orderId, lineItemId ↦ names)`. -/
structure OrderWebhookState where
  skus : List SKURecord
  ordersSheet : List (List String)
  orderMetafields : List (Nat × List (Nat × List String))
  deriving DecidableEq, Repr

/-- The duplicate-order check of `processWebhookPayloadWithSKUs`
(`helper.js` lines 938-945): drop the header row and look for
`orderId.toString()` at column index 1 of any remaining row. -/
def orderAlreadyProcessed (ordersSheet : List (List String)) (orderId : Nat) : Bool :=
  (ordersSheet.drop 1).any fun row => row.get? 1 == some (toString orderId)

/-- Result of `processWebhookPayloadWithSKUs`, reduced to the flags the
claims inspect. -/
structure OrderWebhookResult where
  success : Bool
  skipped : Bool
  deriving DecidableEq, Repr

/-- The sheet rows appended for a processed order (one row per assigned
sub-unit; column 0 is the date cell, column 1 the Paris-time string,
column 2 the invoice name `order.name` — the numeric order id is not
written to any of them). -/
def orderRows (payload : OrderPayload) (results : List (Nat × ItemResult)) :
    List (List String) :=
  results.flatMap fun r =>
    r.2.markedUnavailable.map fun sub => ["", payload.timeParis, payload.name, sub]

/-- `processWebhookPayloadWithSKUs` (`helper.js` lines 934-1060): skip
entirely when the duplicate-order check fires; otherwise allocate through
`processOrderCreation`, write one order-metafield ledger entry holding the
successful assignments, and prepend the order's rows to the `"Orders"`
sheet below its header block (`prependDataToSheet` at row 3). -/
def processWebhookPayloadWithSKUs (st : OrderWebhookState) (ext : String → Int)
    (payload : OrderPayload) : OrderWebhookState × OrderWebhookResult :=
  if orderAlreadyProcessed st.ordersSheet payload.id then
    (st, { success := true, skipped := true })
  else
    let out := processOrderCreation st.skus ext payload.line_items
    let assignments := (out.2.filter fun r => r.2.success).map
      fun r => (r.1, r.2.markedUnavailable)
    let st' : OrderWebhookState :=
      { skus := out.1
        ordersSheet := st.ordersSheet.take 2 ++ orderRows payload out.2 ++ st.ordersSheet.drop 2
        orderMetafields := st.orderMetafields ++ [(payload.id, assignments)] }
    (st', { success := true, skipped := false })

theorem insertJS_perm (x : SubSKU) (l : List SubSKU) : (insertJS x l).Perm (x :: l) := by
  induction l with
  | nil => exact List.Perm.refl _
  | cons y ys ih =>
    by_cases h : subLE x y
    · simp [insertJS, h]
    · simp only [insertJS, h, if_neg, Bool.false_eq_true, not_false_iff, ite_false]
      exact (ih.cons y).trans (List.Perm.swap x y ys)

theorem jsSort_perm (l : List SubSKU) : (jsSort l).Perm l := by
  induction l with
  | nil => exact List.Perm.refl _
  | cons x xs ih => exact (insertJS_perm x (jsSort xs)).trans (ih.cons x)

theorem getAvailableSingle_subskus_perm (rec : SKURecord) :
    (getAvailableSingle rec).availableSubSkus.Perm (rec.subSKU.filter isAvail) :=
  (jsSort_perm rec.subSKU).filter isAvail

theorem getAvailableSingle_count (rec : SKURecord) :
    (getAvailableSingle rec).availableQuantity = (rec.subSKU.filter isAvail).length :=
  (getAvailableSingle_subskus_perm rec).length_eq

theorem getAvailableSingle_subskus_length (rec : SKURecord) :
    (getAvailableSingle rec).availableSubSkus.length
      = (rec.subSKU.filter isAvail).length :=
  (getAvailableSingle_subskus_perm rec).length_eq

theorem filter_isAvail_range_map (n : Nat) (g : Nat → SubSKU)
    (h : ∀ i, (g i).status = "available") :
    ((List.range n).map g).filter isAvail = (List.range n).map g := by
  rw [List.filter_eq_self]
  intro a ha
  rcases List.mem_map.mp ha with ⟨i, _, rfl⟩
  simp [isAvail, h i]

theorem jsSliceLast_sublist (l : List α) (q : Nat) : (jsSliceLast l q).Sublist l := by
  unfold jsSliceLast
  by_cases h : q = 0
  · simp [h]
  · simp only [h, if_neg, ite_false]
    exact List.drop_sublist _ _

theorem removeSubSKUsByQuantity_insufficient (rec : SKURecord) (q : Nat)
    (h : (rec.subSKU.filter isAvail).length < q) :
    removeSubSKUsByQuantity rec q
      = .error ("Not enough available subSKUs for " ++ rec.sku ++ ". Requested: "
          ++ toString q ++ ", Available: "
          ++ toString (rec.subSKU.filter isAvail).length) := by
  unfold removeSubSKUsByQuantity
  simp only [h, if_pos, ite_true]

theorem removeSubSKUsByQuantity_ok_def (rec : SKURecord) (q : Nat)
    (h : q ≤ (rec.subSKU.filter isAvail).length) :
    removeSubSKUsByQuantity rec q
      = .ok { rec with
          subSKU := rec.subSKU.filter fun s =>
            decide (s.name ∉
              (jsSliceLast (rec.subSKU.filter isAvail) q).map fun t => t.name) } := by
  unfold removeSubSKUsByQuantity
  simp only [Nat.not_lt.mpr h, if_neg, Bool.false_eq_true, not_false_iff, ite_false]

theorem name_mem_map_iff_of_nodup (rec : SKURecord)
    (hnd : (rec.subSKU.map fun s => s.name).Nodup)
    (K : List SubSKU) (hK : K.Sublist rec.subSKU)
    (s : SubSKU) (hs : s ∈ rec.subSKU) :
    (s.name ∈ K.map fun t => t.name) ↔ s ∈ K := by
  constructor
  · intro h
    rcases List.mem_map.mp h with ⟨t, htK, hname⟩
    have hteq : t = s := List.inj_on_of_nodup_map hnd (hK.subset htK) hs hname
    exact hteq ▸ htK
  · intro h
    exact List.mem_map_of_mem _ h

theorem nodup_avail_of_nodup_names (rec : SKURecord)
    (hnd : (rec.subSKU.map fun s => s.name).Nodup) :
    (rec.subSKU.filter isAvail).Nodup := by
  have h1 : ((rec.subSKU.filter isAvail).map fun s => s.name).Sublist
      (rec.subSKU.map fun s => s.name) :=
    List.Sublist.map _ (List.filter_sublist rec.subSKU)
  exact List.Nodup.of_map _ (h1.nodup hnd)

theorem removeSubSKUsByQuantity_ok_char (rec : SKURecord) (q : Nat)
    (hnd : (rec.subSKU.map fun s => s.name).Nodup)
    (h : q ≤ (rec.subSKU.filter isAvail).length) :
    removeSubSKUsByQuantity rec q
      = .ok { rec with
          subSKU := rec.subSKU.filter fun s =>
            decide (s ∉ jsSliceLast (rec.subSKU.filter isAvail) q) } := by
  rw [removeSubSKUsByQuantity_ok_def rec q h]
  have hcongr : ∀ s ∈ rec.subSKU,
      (decide (s.name ∉
        (jsSliceLast (rec.subSKU.filter isAvail) q).map fun t => t.name))
      = decide (s ∉ jsSliceLast (rec.subSKU.filter isAvail) q) := by
    intro s hs
    have hiff := name_mem_map_iff_of_nodup rec hnd
      (jsSliceLast (rec.subSKU.filter isAvail) q)
      ((jsSliceLast_sublist (rec.subSKU.filter isAvail) q).trans
        (List.filter_sublist rec.subSKU)) s hs
    rw [decide_eq_decide]
    exact not_congr hiff
  simp only [List.filter_congr hcongr]

theorem removeSubSKUsByQuantity_avail_after (rec : SKURecord) (q : Nat)
    (hnd : (rec.subSKU.map fun s => s.name).Nodup)
    (h1 : q ≠ 0) (h : q ≤ (rec.subSKU.filter isAvail).length) :
    (rec.subSKU.filter fun s =>
        decide (s ∉ jsSliceLast (rec.subSKU.filter isAvail) q)).filter isAvail
      = (rec.subSKU.filter isAvail).take
          ((rec.subSKU.filter isAvail).length - q) := by
  have hndA : (rec.subSKU.filter isAvail).Nodup := nodup_avail_of_nodup_names rec hnd
  set A := rec.subSKU.filter isAvail with hA
  set k := A.length - q with hk
  have hslice : jsSliceLast A q = A.drop k := by
    unfold jsSliceLast
    rw [if_neg h1]
  rw [hslice]
  set D := A.drop k with hD
  have hdisj : (A.take k).Disjoint D := by
    apply List.disjoint_of_nodup_append
    rw [hD, List.take_append_drop]
    exact hndA
  have hcomm : (rec.subSKU.filter fun s => decide (s ∉ D)).filter isAvail
      = A.filter fun s => decide (s ∉ D) := by
    rw [hA, List.filter_filter, List.filter_filter]
    apply List.filter_congr
    intro x _
    exact Bool.and_comm _ _
  rw [hcomm]
  have hsplit : A = A.take k ++ D := by
    rw [hD, List.take_append_drop]
  conv_lhs => rw [hsplit]
  rw [List.filter_append]
  have htake : (A.take k).filter (fun s => decide (s ∉ D)) = A.take k := by
    rw [List.filter_eq_self]
    intro a ha
    exact decide_eq_true (fun hc => hdisj ha hc)
  have hdrop : D.filter (fun s => decide (s ∉ D)) = [] := by
    rw [List.filter_eq_nil_iff]
    intro a ha
    simp [ha]
  rw [htake, hdrop, List.append_nil]

theorem removeSubSKUsByQuantity_count_after (rec : SKURecord) (q : Nat) (rec' : SKURecord)
    (hnd : (rec.subSKU.map fun s => s.name).Nodup)
    (h1 : q ≠ 0)
    (hok : removeSubSKUsByQuantity rec q = .ok rec') :
    (rec'.subSKU.filter isAvail).length
      = (rec.subSKU.filter isAvail).length - q
    ∧ q ≤ (rec.subSKU.filter isAvail).length := by
  by_cases hle : q ≤ (rec.subSKU.filter isAvail).length
  · rw [removeSubSKUsByQuantity_ok_def rec q hle] at hok
    have hrec : rec' = { rec with
        subSKU := rec.subSKU.filter fun s =>
          decide (s.name ∉
            (jsSliceLast (rec.subSKU.filter isAvail) q).map fun t => t.name) } := by
      exact (Except.ok.inj hok).symm
    have hcongr : (rec.subSKU.filter fun s =>
          decide (s.name ∉
            (jsSliceLast (rec.subSKU.filter isAvail) q).map fun t => t.name))
        = rec.subSKU.filter fun s =>
          decide (s ∉ jsSliceLast (rec.subSKU.filter isAvail) q) := by
    
      apply List.filter_congr
      intro s hs
      rw [decide_eq_decide]
      exact not_congr (name_mem_map_iff_of_nodup rec hnd
        (jsSliceLast (rec.subSKU.filter isAvail) q)
        ((jsSliceLast_sublist (rec.subSKU.filter isAvail) q).trans
          (List.filter_sublist rec.subSKU)) s hs)
    refine ⟨?_, hle⟩
    rw [hrec]
    simp only [hcongr]
    rw [removeSubSKUsByQuantity_avail_after rec q hnd h1 hle]
    rw [List.length_take]
    exact Nat.min_eq_left (Nat.sub_le _ _)
  · rw [removeSubSKUsByQuantity_insufficient rec q (Nat.not_le.mp hle)] at hok
    exact absurd hok (by simp)

theorem removeSubSKUsByQuantity_deleted_only_avail (rec : SKURecord) (q : Nat)
    (rec' : SKURecord)
    (hnd : (rec.subSKU.map fun s => s.name).Nodup)
    (hok : removeSubSKUsByQuantity rec q = .ok rec') :
    ∀ s ∈ rec.subSKU, s ∉ rec'.subSKU → s.status = "available" := by
  by_cases hle : q ≤ (rec.subSKU.filter isAvail).length
  · rw [removeSubSKUsByQuantity_ok_char rec q hnd hle] at hok
    have hrec : rec' = { rec with
        subSKU := rec.subSKU.filter fun s =>
          decide (s ∉ jsSliceLast (rec.subSKU.filter isAvail) q) } :=
      (Except.ok.inj hok).symm
    intro s hs hns
    rw [hrec] at hns
    simp only [List.mem_filter] at hns
    have hsin : s ∈ jsSliceLast (rec.subSKU.filter isAvail) q := by
      by_contra hc
      exact hns ⟨hs, decide_eq_true hc⟩
    have hsA : s ∈ rec.subSKU.filter isAvail :=
      (jsSliceLast_sublist _ q).subset hsin
    have := (List.mem_filter.mp hsA).2
    exact of_decide_eq_true this
  · rw [removeSubSKUsByQuantity_insufficient rec q (Nat.not_le.mp hle)] at hok
    exact absurd hok (by simp)

theorem applyRemove_insufficient (rec : SKURecord) (q : Nat)
    (h : (rec.subSKU.filter isAvail).length < q) :
    applyRemove rec q = rec := by
  unfold applyRemove
  rw [removeSubSKUsByQuantity_insufficient rec q h]

theorem subLE_true_iff_of_isSome (a b : SubSKU)
    (ha : (suffixKey a).isSome) (hb : (suffixKey b).isSome) :
    subLE a b = true ↔ (suffixKey a).getD 0 ≤ (suffixKey b).getD 0 := by
  rcases Option.isSome_iff_exists.mp ha with ⟨ka, hka⟩
  rcases Option.isSome_iff_exists.mp hb with ⟨kb, hkb⟩
  unfold subLE
  rw [hka, hkb]
  simp

theorem subLE_false_le (a b : SubSKU)
    (ha : (suffixKey a).isSome) (hb : (suffixKey b).isSome)
    (h : ¬ subLE a b = true) :
    (suffixKey b).getD 0 ≤ (suffixKey a).getD 0 := by
  rcases Option.isSome_iff_exists.mp ha with ⟨ka, hka⟩
  rcases Option.isSome_iff_exists.mp hb with ⟨kb, hkb⟩
  unfold subLE at h
  rw [hka, hkb] at h
  simp only [decide_eq_true_eq] at h
  simp only [hka, hkb, Option.getD_some]
  omega

theorem insertJS_pairwise (x : SubSKU) (l : List SubSKU)
    (hx : (suffixKey x).isSome) (hl : ∀ s ∈ l, (suffixKey s).isSome)
    (hp : l.Pairwise fun a b => (suffixKey a).getD 0 ≤ (suffixKey b).getD 0) :
    (insertJS x l).Pairwise fun a b => (suffixKey a).getD 0 ≤ (suffixKey b).getD 0 := by
  induction l with
  | nil => simp [insertJS]
  | cons y ys ih =>
    have hy : (suffixKey y).isSome := hl y (List.mem_cons_self y ys)
    have hys : ∀ s ∈ ys, (suffixKey s).isSome :=
      fun s hs => hl s (List.mem_cons_of_mem y hs)
    rcases List.pairwise_cons.mp hp with ⟨hyall, hpys⟩
    by_cases h : subLE x y = true
    · simp only [insertJS, h, if_pos, ite_true]
      rw [List.pairwise_cons]
      refine ⟨?_, hp⟩
      intro b hb
      rcases List.mem_cons.mp hb with hb | hb
      · exact hb ▸ (subLE_true_iff_of_isSome x y hx hy).mp h
      · exact le_trans ((subLE_true_iff_of_isSome x y hx hy).mp h) (hyall b hb)
    · simp only [insertJS, h, if_neg, Bool.false_eq_true, not_false_iff, ite_false]
      rw [List.pairwise_cons]
      refine ⟨?_, ih hys hpys⟩
      intro b hb
      have hb' := (insertJS_perm x ys).mem_iff.mp hb
      rcases List.mem_cons.mp hb' with hb' | hb'
      · exact hb' ▸ subLE_false_le x y hx hy h
      · exact hyall b hb'

theorem jsSort_pairwise (l : List SubSKU)
    (hl : ∀ s ∈ l, (suffixKey s).isSome) :
    (jsSort l).Pairwise fun a b => (suffixKey a).getD 0 ≤ (suffixKey b).getD 0 := by
  induction l with
  | nil => simp [jsSort]
  | cons x xs ih =>
    have hx : (suffixKey x).isSome := hl x (List.mem_cons_self x xs)
    have hxs : ∀ s ∈ xs, (suffixKey s).isSome :=
      fun s hs => hl s (List.mem_cons_of_mem x hs)
    have hsort : ∀ s ∈ jsSort xs, (suffixKey s).isSome :=
      fun s hs => hxs s ((jsSort_perm xs).mem_iff.mp hs)
    exact insertJS_pairwise x (jsSort xs) hx hsort (ih hxs)

theorem filter_not_avail_untouched (l : List SubSKU) (D : List SubSKU)
    (hD : ∀ s ∈ D, isAvail s = true) :
    (l.filter fun s => decide (s ∉ D)).filter (fun s => !(isAvail s))
      = l.filter fun s => !(isAvail s) := by
  rw [List.filter_filter]
  apply List.filter_congr
  intro x hx
  by_cases hav : isAvail x = true
  · simp [hav]
  · have hxD : x ∉ D := fun hc => hav (hD x hc)
    simp [hav, hxD]

/-- C4: for every pool with unique sub-unit names and every quantity `q`,
`removeSubSKUsByQuantity` only ever deletes sub-units whose status is
`"available"`; when fewer than `q` are available it reports the
insufficient-available error and the stored pool is left unchanged, so no
unavailable sub-unit is ever deleted. -/
theorem claim_C4 (rec : SKURecord) (q : Nat)
    (hnd : (rec.subSKU.map fun s => s.name).Nodup) :
    ((rec.subSKU.filter isAvail).length < q →
      removeSubSKUsByQuantity rec q
        = .error ("Not enough available subSKUs for " ++ rec.sku ++ ". Requested: "
            ++ toString q ++ ", Available: "
            ++ toString (rec.subSKU.filter isAvail).length)
      ∧ applyRemove rec q = rec)
    ∧ (∀ rec', removeSubSKUsByQuantity rec q = .ok rec' →
        ∀ s ∈ rec.subSKU, s ∉ rec'.subSKU → s.status = "available") := by
  constructor
  · intro h
    exact ⟨removeSubSKUsByQuantity_insufficient rec q h,
      applyRemove_insufficient rec q h⟩
  · intro rec' hok
    exact removeSubSKUsByQuantity_deleted_only_avail rec q rec' hnd hok

/-- C4 witness (the spec's own scenario): a pool with one available and four
unavailable sub-units; removing two fails with the insufficient-available
error message and the observed pool is unchanged. -/
theorem claim_C4_witness :
    removeSubSKUsByQuantity
      ⟨"A", [⟨"A-0001", "unavailable"⟩, ⟨"A-0002", "unavailable"⟩,
        ⟨"A-0003", "unavailable"⟩, ⟨"A-0004", "unavailable"⟩,
        ⟨"A-0005", "available"⟩]⟩ 2
      = .error "Not enough available subSKUs for A. Requested: 2, Available: 1"
    ∧ applyRemove
        ⟨"A", [⟨"A-0001", "unavailable"⟩, ⟨"A-0002", "unavailable"⟩,
          ⟨"A-0003", "unavailable"⟩, ⟨"A-0004", "unavailable"⟩,
          ⟨"A-0005", "available"⟩]⟩ 2
      = ⟨"A", [⟨"A-0001", "unavailable"⟩, ⟨"A-0002", "unavailable"⟩,
          ⟨"A-0003", "unavailable"⟩, ⟨"A-0004", "unavailable"⟩,
          ⟨"A-0005", "available"⟩]⟩ := by
  have h := claim_C4
    ⟨"A", [⟨"A-0001", "unavailable"⟩, ⟨"A-0002", "unavailable"⟩,
      ⟨"A-0003", "unavailable"⟩, ⟨"A-0004", "unavailable"⟩,
      ⟨"A-0005", "available"⟩]⟩ 2 (by decide)
  exact h.1 (by decide)

/-- C5 counterexample: in a pool whose storage order is `B-0002, B-0001`
(both available), removing one sub-unit deletes `B-0001` — the *last stored*
available sub-unit — and keeps `B-0002`, whereas the claim predicts that the
highest suffix `B-0002` is deleted and the lower-numbered `B-0001` kept. -/
theorem claim_C5_counterexample :
    removeSubSKUsByQuantity
        ⟨"B", [⟨"B-0002", "available"⟩, ⟨"B-0001", "available"⟩]⟩ 1
      = .ok ⟨"B", [⟨"B-0002", "available"⟩]⟩
    ∧ removeSubSKUsByQuantity
        ⟨"B", [⟨"B-0002", "available"⟩, ⟨"B-0001", "available"⟩]⟩ 1
      ≠ .ok ⟨"B", [⟨"B-0001", "available"⟩]⟩ := by
  constructor
  · rfl
  · intro h
    rw [show removeSubSKUsByQuantity
        ⟨"B", [⟨"B-0002", "available"⟩, ⟨"B-0001", "available"⟩]⟩ 1
      = .ok ⟨"B", [⟨"B-0002", "available"⟩]⟩ from rfl] at h
    exact absurd (Except.ok.inj h) (by decide)

/-- C5 (amended): for a pool with unique names, at least `q ≥ 1` available
sub-units, `removeSubSKUsByQuantity` deletes exactly the last `q` elements
of the available subsequence in *storage* order (which coincides with
highest-suffix order only when the stored available subsequence is sorted
by suffix, as in the `0001`-`0005` scenario); all earlier available
sub-units and every unavailable sub-unit survive. -/
theorem claim_C5_amended (rec : SKURecord) (q : Nat)
    (hnd : (rec.subSKU.map fun s => s.name).Nodup)
    (h1 : q ≠ 0) (h : q ≤ (rec.subSKU.filter isAvail).length) :
    ∃ rec', removeSubSKUsByQuantity rec q = .ok rec'
      ∧ rec'.subSKU = rec.subSKU.filter (fun s =>
          decide (s ∉ (rec.subSKU.filter isAvail).drop
            ((rec.subSKU.filter isAvail).length - q)))
      ∧ rec'.subSKU.filter isAvail
          = (rec.subSKU.filter isAvail).take
              ((rec.subSKU.filter isAvail).length - q)
      ∧ rec'.subSKU.filter (fun s => !(isAvail s))
          = rec.subSKU.filter fun s => !(isAvail s) := by
  have hslice : jsSliceLast (rec.subSKU.filter isAvail) q
      = (rec.subSKU.filter isAvail).drop
          ((rec.subSKU.filter isAvail).length - q) := by
    unfold jsSliceLast
    rw [if_neg h1]
  have hD : ∀ s ∈ (rec.subSKU.filter isAvail).drop
      ((rec.subSKU.filter isAvail).length - q), isAvail s = true :=
    fun s hs => (List.mem_filter.mp ((List.drop_sublist _ _).subset hs)).2
  refine ⟨_, removeSubSKUsByQuantity_ok_char rec q hnd h, ?_, ?_, ?_⟩
  · simp only [hslice]
  · show ((rec.subSKU.filter fun s =>
        decide (s ∉ jsSliceLast (rec.subSKU.filter isAvail) q)).filter isAvail) = _
    exact removeSubSKUsByQuantity_avail_after rec q hnd h1 h
  · show ((rec.subSKU.filter fun s =>
        decide (s ∉ jsSliceLast (rec.subSKU.filter isAvail) q)).filter
          fun s => !(isAvail s)) = _
    rw [hslice]
    exact filter_not_avail_untouched rec.subSKU _ hD

/-- C5 amended-claim witness: the spec's shrink scenario — five available
sub-units `0001`-`0005` stored in suffix order, removing two deletes
`0004` and `0005` and keeps `0001`-`0003`. -/
theorem claim_C5_witness :
    ∃ rec', removeSubSKUsByQuantity
        ⟨"C", [⟨"C-0001", "available"⟩, ⟨"C-0002", "available"⟩,
          ⟨"C-0003", "available"⟩, ⟨"C-0004", "available"⟩,
          ⟨"C-0005", "available"⟩]⟩ 2 = .ok rec'
      ∧ rec'.subSKU.filter isAvail
          = [⟨"C-0001", "available"⟩, ⟨"C-0002", "available"⟩,
              ⟨"C-0003", "available"⟩]
      ∧ rec'.subSKU.filter (fun s => !(isAvail s)) = [] := by
  rcases claim_C5_amended
      ⟨"C", [⟨"C-0001", "available"⟩, ⟨"C-0002", "available"⟩,
        ⟨"C-0003", "available"⟩, ⟨"C-0004", "available"⟩,
        ⟨"C-0005", "available"⟩]⟩ 2 (by decide) (by decide) (by decide)
    with ⟨rec', hok, _, hav, hunav⟩
  exact ⟨rec', hok, by rw [hav]; rfl, by rw [hunav]; rfl⟩

/-- C7: when a line item's ledger entry holds at least `q ≥ 1` names, the
refund / cancellation release step releases exactly the last `q` names of
the entry in order (the LIFO tail), flips exactly those names to
`"available"` in the pool, and the persisted entry becomes the original
list with its last `q` elements dropped. -/
theorem claim_C7 (pool : SKURecord) (entry : List String) (q : Nat)
    (h1 : 1 ≤ q) (h2 : q ≤ entry.length) :
    (releaseLineItem pool entry q).skipped = false
    ∧ (releaseLineItem pool entry q).released = entry.drop (entry.length - q)
    ∧ (releaseLineItem pool entry q).newEntry = entry.take (entry.length - q)
    ∧ (releaseLineItem pool entry q).pool.subSKU
        = pool.subSKU.map fun s =>
            if s.name ∈ entry.drop (entry.length - q)
            then { s with status := "available" } else s := by
  have hne : ¬ entry.length = 0 := by omega
  have hq0 : ¬ q = 0 := by omega
  simp only [releaseLineItem, jsSliceLast, jsDropLast, hne, hq0, if_neg,
    Bool.false_eq_true, not_false_iff, ite_false, updateSubSKUStatus]
  simp

/-- C7 witness (the spec's refund scenario): ledger entry
`[A-0001, A-0002, A-0003]` with quantity `2` releases `A-0002, A-0003` and
leaves `[A-0001]`. -/
theorem claim_C7_witness :
    (releaseLineItem
        ⟨"A", [⟨"A-0001", "unavailable"⟩, ⟨"A-0002", "unavailable"⟩,
          ⟨"A-0003", "unavailable"⟩]⟩
        ["A-0001", "A-0002", "A-0003"] 2).released = ["A-0002", "A-0003"]
    ∧ (releaseLineItem
        ⟨"A", [⟨"A-0001", "unavailable"⟩, ⟨"A-0002", "unavailable"⟩,
          ⟨"A-0003", "unavailable"⟩]⟩
        ["A-0001", "A-0002", "A-0003"] 2).newEntry = ["A-0001"] := by
  have h := claim_C7
    ⟨"A", [⟨"A-0001", "unavailable"⟩, ⟨"A-0002", "unavailable"⟩,
      ⟨"A-0003", "unavailable"⟩]⟩
    ["A-0001", "A-0002", "A-0003"] 2 (by decide) (by decide)
  exact ⟨h.2.1, h.2.2.1⟩

/-- C10: a refund / cancellation line item with quantity `0` and a
non-empty ledger entry releases the *whole* entry (`slice(-0)` is the full
list) and persists the empty list as the new entry (`slice(0, -0)` is
empty); every name of the entry is flipped to `"available"`. -/
theorem claim_C10 (pool : SKURecord) (entry : List String) (h : entry ≠ []) :
    (releaseLineItem pool entry 0).skipped = false
    ∧ (releaseLineItem pool entry 0).released = entry
    ∧ (releaseLineItem pool entry 0).newEntry = []
    ∧ (releaseLineItem pool entry 0).pool.subSKU
        = pool.subSKU.map fun s =>
            if s.name ∈ entry then { s with status := "available" } else s := by
  have hne : ¬ entry.length = 0 := fun hc => h (List.length_eq_zero.mp hc)
  simp only [releaseLineItem, jsSliceLast, jsDropLast, hne, if_neg,
    Bool.false_eq_true, not_false_iff, ite_false, ite_true, updateSubSKUStatus]
  simp

/-- C10 witness: entry `[A-0001, A-0002]` refunded with quantity `0`
releases both names and empties the ledger entry. -/
theorem claim_C10_witness :
    (releaseLineItem
        ⟨"A", [⟨"A-0001", "unavailable"⟩, ⟨"A-0002", "unavailable"⟩]⟩
        ["A-0001", "A-0002"] 0).released = ["A-0001", "A-0002"]
    ∧ (releaseLineItem
        ⟨"A", [⟨"A-0001", "unavailable"⟩, ⟨"A-0002", "unavailable"⟩]⟩
        ["A-0001", "A-0002"] 0).newEntry = [] := by
  have h := claim_C10
    ⟨"A", [⟨"A-0001", "unavailable"⟩, ⟨"A-0002", "unavailable"⟩]⟩
    ["A-0001", "A-0002"] (by decide)
  exact ⟨h.2.1, h.2.2.1⟩

/-- C8 (code bug): the duplicate-order check looks for `orderId.toString()`
at column index 1 of the `"Orders"` sheet, but every row the processing
path writes there carries the Paris-time string at column 1 and the order
*name* at column 2 — the numeric order id is never written.  So full
processing leaves no durable marker the check can find: delivering the
same order-create event twice processes it twice.  Evaluated here on a
fresh sheet with pool `A = [A-0001 available]` and order `42`: the first
run fully processes the order (pool mutated, sheet row and ledger entry
written), yet the marker check on the resulting state is `false`, and the
second run is *not* skipped — it allocates again (synthesizing a duplicate
`A-0001`) and writes a second ledger entry for the same order. -/
theorem claim_C8 :
    processWebhookPayloadWithSKUs
        ⟨[⟨"A", [⟨"A-0001", "available"⟩]⟩], [["Date", "Time", "Invoice"]], []⟩
        (fun _ => 0)
        ⟨42, "#1001", "12:00:00", [⟨7, some "A", 1⟩]⟩
      = (⟨[⟨"A", [⟨"A-0001", "unavailable"⟩]⟩],
          [["Date", "Time", "Invoice"], ["", "12:00:00", "#1001", "A-0001"]],
          [(42, [(7, ["A-0001"])])]⟩,
         { success := true, skipped := false })
    ∧ orderAlreadyProcessed
        [["Date", "Time", "Invoice"], ["", "12:00:00", "#1001", "A-0001"]] 42
      = false
    ∧ processWebhookPayloadWithSKUs
        ⟨[⟨"A", [⟨"A-0001", "unavailable"⟩]⟩],
          [["Date", "Time", "Invoice"], ["", "12:00:00", "#1001", "A-0001"]],
          [(42, [(7, ["A-0001"])])]⟩
        (fun _ => 0)
        ⟨42, "#1001", "12:00:00", [⟨7, some "A", 1⟩]⟩
      = (⟨[⟨"A", [⟨"A-0001", "unavailable"⟩, ⟨"A-0001", "unavailable"⟩]⟩],
          [["Date", "Time", "Invoice"], ["", "12:00:00", "#1001", "A-0001"],
            ["", "12:00:00", "#1001", "A-0001"]],
          [(42, [(7, ["A-0001"])]), (42, [(7, ["A-0001"])])]⟩,
         { success := true, skipped := false }) := by
  refine ⟨rfl, rfl, rfl⟩

/-- C9 (code bug): `processProductUpdate` never mutates any SKU pool — in
particular an inventory increase does *not* persist the generated sub-units
to the pool; on the failing input (snapshot quantity 1, reported quantity
2) the increase branch aborts with the `ReferenceError` on the undeclared
`skuData` and the operation reports failure with the pool untouched. -/
theorem claim_C9 :
    (∀ (pools : List SKURecord) (snapshot : Option ProductSnapshot)
        (payload : ProductPayload),
      (processProductUpdate pools snapshot payload).1 = pools)
    ∧ processProductUpdate
        [⟨"A", [⟨"A-0001", "available"⟩]⟩]
        (some ⟨[⟨"A", 1⟩]⟩)
        ⟨1001, "Prod", [⟨some "A", 2⟩]⟩
      = ([⟨"A", [⟨"A-0001", "available"⟩]⟩], .error "skuData is not defined") := by
  constructor
  · intro pools snapshot payload
    unfold processProductUpdate
    split <;> rfl
  · rfl

/-- C1 (code bug): reserving 2 units of `"X"` from the pool
`[X-0001 available, X-0002 unavailable]` synthesizes the shortfall from the
highest *available* suffix (1), so the new sub-unit is named `X-0002` —
duplicating the existing unavailable `X-0002` instead of continuing from the
pool-wide maximum (`X-0003`); the resulting pool has non-unique names. -/
theorem claim_C1 :
    (processOrderCreationItem
        (some ⟨"X", [⟨"X-0001", "available"⟩, ⟨"X-0002", "unavailable"⟩]⟩)
        2 0).2.markedUnavailable = ["X-0001", "X-0002"]
    ∧ ((processOrderCreationItem
        (some ⟨"X", [⟨"X-0001", "available"⟩, ⟨"X-0002", "unavailable"⟩]⟩)
        2 0).1.map fun r => r.subSKU.map fun s => s.name)
      = some ["X-0001", "X-0002", "X-0002"]
    ∧ ¬ (["X-0001", "X-0002", "X-0002"] : List String).Nodup := by
  refine ⟨rfl, rfl, by decide⟩

theorem avail_len_append_range (sku : String) (l : List SubSKU) (n : Nat)
    (f : Nat → String) :
    (getAvailableSingle
        ⟨sku, l ++ (List.range n).map fun i => ⟨f i, "available"⟩⟩).availableSubSkus.length
      = (l.filter isAvail).length + n := by
  rw [getAvailableSingle_subskus_length]
  show ((l ++ (List.range n).map fun i =>
      (⟨f i, "available"⟩ : SubSKU)).filter isAvail).length = _
  rw [List.filter_append, List.length_append,
    filter_isAvail_range_map n _ (fun i => rfl), List.length_map, List.length_range]

/-- C2: for every existing SKU record and positive quantity `q`, the
order-creation allocation reports success and returns exactly `q` sub-unit
names in selection order, even when fewer than `q` were available at the
start (the shortfall is synthesized and re-sliced); for a missing record it
reports the SKU-not-found failure. -/
theorem claim_C2 (rec : SKURecord) (q : Nat) (ext : Int) (hq : 0 < q) :
    ((processOrderCreationItem (some rec) q ext).2.success = true
      ∧ (processOrderCreationItem (some rec) q ext).2.markedUnavailable.length = q)
    ∧ (processOrderCreationItem none q ext).2.success = false
    ∧ (processOrderCreationItem none q ext).2.errorMsg
        = some "SKU not found in database" := by
  refine ⟨⟨rfl, ?_⟩, rfl, rfl⟩
  show ((processOrderCreationItem (some rec) q ext).2.markedUnavailable).length = q
  simp only [processOrderCreationItem]
  rw [List.length_map]
  by_cases hc : ((getAvailableSingle rec).availableSubSkus.take q).length < q
  · rw [if_pos hc]
    have ha : (getAvailableSingle rec).availableSubSkus.length < q := by
      rw [List.length_take] at hc
      omega
    rw [List.length_append, List.length_drop, List.length_take, List.length_take,
      avail_len_append_range]
    have hfa := getAvailableSingle_subskus_length rec
    omega
  · rw [if_neg hc]
    rw [List.length_take] at hc ⊢
    omega

/-- C2 witness: a pool of `"A"` with a single available sub-unit serves a
reservation of three: success with exactly three names; the missing record
fails with SKU-not-found. -/
theorem claim_C2_witness :
    ((processOrderCreationItem (some ⟨"A", [⟨"A-0001", "available"⟩]⟩) 3 0).2.success
        = true
      ∧ (processOrderCreationItem
          (some ⟨"A", [⟨"A-0001", "available"⟩]⟩) 3 0).2.markedUnavailable.length = 3)
    ∧ (processOrderCreationItem none 3 0).2.success = false
    ∧ (processOrderCreationItem none 3 0).2.errorMsg
        = some "SKU not found in database" :=
  claim_C2 ⟨"A", [⟨"A-0001", "available"⟩]⟩ 3 0 (by decide)

theorem filter_isAvail_map_mk (n : Nat) (f : Nat → String) :
    ((List.range n).map fun i => (⟨f i, "available"⟩ : SubSKU)).filter isAvail
      = (List.range n).map fun i => (⟨f i, "available"⟩ : SubSKU) :=
  filter_isAvail_range_map n _ (fun i => rfl)

theorem removeSubSKUsByQuantity_ok_le (rec : SKURecord) (q : Nat) (rec' : SKURecord)
    (hok : removeSubSKUsByQuantity rec q = .ok rec') :
    q ≤ (rec.subSKU.filter isAvail).length := by
  by_cases hle : q ≤ (rec.subSKU.filter isAvail).length
  · exact hle
  · rw [removeSubSKUsByQuantity_insufficient rec q (Nat.not_le.mp hle)] at hok
    exact absurd hok (by simp)

theorem createNewSKU_none_count (sku : String) (n : Int) :
    ((createNewSKU none sku n).subSKU.filter isAvail).length = n.toNat := by
  show (((List.range n.toNat).map fun i =>
      (⟨subName sku (some (i + 1)), "available"⟩ : SubSKU)).filter isAvail).length
    = n.toNat
  rw [filter_isAvail_range_map _ _ (fun i => rfl), List.length_map, List.length_range]

/-- C3: reconciling a SKU to external quantity `n` is idempotent — if a
first `processInventoryLevelUpdate` call over a well-formed store (unique
names) succeeded and produced pool `rec₁`, the second call with the same
`n` returns `rec₁` unchanged with the no-adjustment action: it performs no
additions and no removals. -/
theorem claim_C3 (store : Option SKURecord) (sku : String) (n : Int)
    (rec₁ : SKURecord) (act : InvAction)
    (hnd : ∀ r, store = some r → (r.subSKU.map fun s => s.name).Nodup)
    (h : processInventoryLevelUpdate store sku n = .ok (rec₁, act)) :
    processInventoryLevelUpdate (some rec₁) sku n = .ok (rec₁, InvAction.same) := by
  have key : (((rec₁.subSKU.filter isAvail).length : Int)) = n := by
    cases store with
    | some r =>
      have hndr := hnd r rfl
      have hc := getAvailableSingle_count r
      simp only [processInventoryLevelUpdate] at h
      by_cases hlt : ((getAvailableSingle r).availableQuantity : Int) < n
      · rw [if_pos hlt] at h
        have hpair := Except.ok.inj h
        injection hpair with hX hY
        subst hX
        simp only [List.filter_append, List.length_append, filter_isAvail_map_mk,
          List.length_map, List.length_range]
        omega
      · rw [if_neg hlt] at h
        by_cases hgt : n < ((getAvailableSingle r).availableQuantity : Int)
        · rw [if_pos hgt] at h
          cases hrm : removeSubSKUsByQuantity r
              ((((getAvailableSingle r).availableQuantity : Int)) - n).toNat with
          | error e =>
            rw [hrm] at h
            exact absurd h (by simp)
          | ok rec' =>
            rw [hrm] at h
            have hpair := Except.ok.inj h
            injection hpair with hX hY
            subst hX
            have h1q : ((((getAvailableSingle r).availableQuantity : Int)) - n).toNat
                ≠ 0 := by omega
            have hca := removeSubSKUsByQuantity_count_after r _ rec' hndr h1q hrm
            omega
        · rw [if_neg hgt] at h
          have hpair := Except.ok.inj h
          injection hpair with hX hY
          subst hX
          omega
    | none =>
      have hcnt := createNewSKU_none_count sku n
      have hc := getAvailableSingle_count (createNewSKU none sku n)
      simp only [processInventoryLevelUpdate] at h
      by_cases hlt : ((getAvailableSingle (createNewSKU none sku n)).availableQuantity
          : Int) < n
      · exact absurd hlt (by omega)
      · rw [if_neg hlt] at h
        by_cases hgt : n < ((getAvailableSingle (createNewSKU none sku n)).availableQuantity : Int)
        · rw [if_pos hgt] at h
          cases hrm : removeSubSKUsByQuantity (createNewSKU none sku n)
              ((((getAvailableSingle (createNewSKU none sku n)).availableQuantity
                : Int)) - n).toNat with
          | error e =>
            rw [hrm] at h
            exact absurd h (by simp)
          | ok rec' =>
            have hle := removeSubSKUsByQuantity_ok_le _ _ _ hrm
            exact absurd hle (by omega)
        · rw [if_neg hgt] at h
          have hpair := Except.ok.inj h
          injection hpair with hX hY
          subst hX
          omega
  have hc₁ := getAvailableSingle_count rec₁
  have h1 : ¬ (((getAvailableSingle rec₁).availableQuantity : Int) < n) := by omega
  have h2 : ¬ (n < ((getAvailableSingle rec₁).availableQuantity : Int)) := by omega
  simp only [processInventoryLevelUpdate]
  rw [if_neg h1, if_neg h2]

/-- C3 witness: pool `A-0001` (available), external quantity 2 — the first
call appends `A-0002`; the second call with the same quantity is a no-op
returning the same pool with the no-adjustment action. -/
theorem claim_C3_witness :
    processInventoryLevelUpdate
        (some ⟨"A", [⟨"A-0001", "available"⟩, ⟨"A-0002", "available"⟩]⟩) "A" 2
      = .ok (⟨"A", [⟨"A-0001", "available"⟩, ⟨"A-0002", "available"⟩]⟩,
          InvAction.same) :=
  claim_C3 (some ⟨"A", [⟨"A-0001", "available"⟩]⟩) "A" 2
    ⟨"A", [⟨"A-0001", "available"⟩, ⟨"A-0002", "available"⟩]⟩
    (InvAction.added 1)
    (by intro r hr; injection hr with h2; subst h2; decide)
    (by rfl)

theorem getAvailableSingle_subskus_eq (rec : SKURecord) :
    (getAvailableSingle rec).availableSubSkus
      = (jsSort rec.subSKU).filter isAvail := rfl

/-- C6 counterexample: in the pool `[X-0001, X-AB]` (both available) the
claim predicts that `X-AB` — a non-numeric suffix "treated as 0" — sorts
first, but `parseInt("AB")` is `NaN`, the comparator therefore returns a
value the sort treats as "equal", and the stable sort leaves `X-AB` after
`X-0001`. -/
theorem claim_C6_counterexample :
    ((getAvailableSingle
        ⟨"X", [⟨"X-0001", "available"⟩, ⟨"X-AB", "available"⟩]⟩).availableSubSkus.map
          fun s => s.name)
      = ["X-0001", "X-AB"]
    ∧ (["X-0001", "X-AB"] : List String) ≠ ["X-AB", "X-0001"]
    ∧ suffixKey ⟨"X-AB", "available"⟩ = none := by
  refine ⟨rfl, by decide, rfl⟩

/-- C6 (amended): the availability query reports the stored total, the
available count, and the available subsequence; `availableSubUnits` is a
permutation of the status-available subsequence and — whenever every
sub-unit's suffix parses to a number, with a missing name or empty suffix
parsing as `0` and sorting first — it is sorted ascending by that numeric
suffix.  A sub-unit whose suffix is wholly non-numeric compares as "equal"
to everything (`parseInt` gives `NaN`) and keeps its relative storage
position instead of sorting first.  A sub-unit that is not available never
appears in `availableSubUnits`; an unknown SKU yields the empty result
list. -/
theorem claim_C6_amended (rec : SKURecord)
    (hnum : ∀ s ∈ rec.subSKU, (suffixKey s).isSome) :
    getAvailableSKUs none = []
    ∧ getAvailableSKUs (some rec) = [getAvailableSingle rec]
    ∧ (getAvailableSingle rec).totalQuantity = rec.subSKU.length
    ∧ (getAvailableSingle rec).availableQuantity
        = (getAvailableSingle rec).availableSubSkus.length
    ∧ (getAvailableSingle rec).availableSubSkus.Perm (rec.subSKU.filter isAvail)
    ∧ (getAvailableSingle rec).availableSubSkus.Pairwise
        (fun a b => (suffixKey a).getD 0 ≤ (suffixKey b).getD 0)
    ∧ ∀ s ∈ rec.subSKU, ¬ s.status = "available" →
        s ∉ (getAvailableSingle rec).availableSubSkus := by
  refine ⟨rfl, rfl, rfl, rfl, getAvailableSingle_subskus_perm rec, ?_, ?_⟩
  · rw [getAvailableSingle_subskus_eq]
    exact List.Pairwise.filter isAvail (jsSort_pairwise rec.subSKU hnum)
  · intro s _ hstat hmem
    rw [getAvailableSingle_subskus_eq] at hmem
    exact hstat (of_decide_eq_true (List.mem_filter.mp hmem).2)

/-- C6 amended-claim witness: a pool stored out of suffix order
(`X-0002, X-0001, X-0003`, the middle one unavailable) — the query's
available list is a permutation of the available subsequence sorted
ascending by suffix. -/
theorem claim_C6_witness :
    (getAvailableSingle
        ⟨"X", [⟨"X-0002", "available"⟩, ⟨"X-0001", "unavailable"⟩,
          ⟨"X-0003", "available"⟩]⟩).availableSubSkus.Perm
      ([⟨"X-0002", "available"⟩, ⟨"X-0003", "available"⟩] : List SubSKU)
    ∧ (getAvailableSingle
        ⟨"X", [⟨"X-0002", "available"⟩, ⟨"X-0001", "unavailable"⟩,
          ⟨"X-0003", "available"⟩]⟩).availableSubSkus.Pairwise
        (fun a b => (suffixKey a).getD 0 ≤ (suffixKey b).getD 0) := by
  have h := claim_C6_amended
    ⟨"X", [⟨"X-0002", "available"⟩, ⟨"X-0001", "unavailable"⟩,
      ⟨"X-0003", "available"⟩]⟩ (by decide)
  exact ⟨h.2.2.2.2.1, h.2.2.2.2.2.1⟩
